import Mathlib

/-!
# Verification of the RL training framework (Actor / Agent / Buffer / PGLearner)

Shallow embedding of the repository `playing-with-RL-models`:

* `src/agents/agent.py` — generic `Agent` orchestrator (`_calc_num_steps`, `update`);
* `src/agents/dqn/agent.py` — `DQNAgent` (gated `update`, epsilon schedule,
  attribute-access model for the `_actor`/`_learner`/`_buffer` names);
* `src/agents/vpg/learning.py` — `PGLearner` (`_discounted_cumulative_returns`,
  `_normalized_returns`, `_episode_entropy`, the loss pipeline of `step`);
* `src/agents/vpg/agent.py` — the `policy` closure with illegal-action masking.

Python floats are modelled by `ℚ` where the code is pure rational arithmetic
(agent counters, the epsilon schedule) and by `ℝ` where it involves
`exp`/`log`/`softmax` (the PGLearner tensors).  Python exceptions are modelled
by `Except PyError`.
-/

/-- The Python exceptions relevant to the embedded code.  `attributeError s`
models `AttributeError` on the attribute named `s`; `zeroDivisionError` models
`ZeroDivisionError`; `batchShapeError` stands for the `BatchShapeError` named by
the specification (no such class exists anywhere in the source). -/
inductive PyError where
  | attributeError (name : String)
  | zeroDivisionError
  | batchShapeError
  deriving DecidableEq, Repr

/-! ## Generic `Agent` (src/agents/agent.py)

`Agent.__init__` stores `min_observations` (default `0`),
`observations_per_step` (default `0`; `None` is also used, e.g. by `PGAgent`)
and starts the counter `_num_observations` at `0`.  The buffer is opaque here:
only `len(self.buffer)` is read by the embedded methods, so the state keeps the
length. -/

/-- State of a generic `Agent` (`src/agents/agent.py`).  `observationsPerStep`
is `none` for Python `None`, `some v` for a numeric value `v` (the constructor
default is the integer `0`, i.e. `some 0`). -/
structure AgentState where
  minObservations : ℕ
  observationsPerStep : Option ℚ
  bufferLen : ℕ
  numObservations : ℕ
  deriving DecidableEq, Repr

/-- Python `int(q)`: truncation toward zero. -/
def pyInt (q : ℚ) : ℤ :=
  if 0 ≤ q then ⌊q⌋ else ⌈q⌉

/-- Embedding of `Agent._calc_num_steps` (src/agents/agent.py lines 63-68):

    if len(self.buffer) < self.min_observations: return 0
    if self.observations_per_step == None: return 1
    return int(self._num_observations / self.observations_per_step)

Python true division raises `ZeroDivisionError` when `observations_per_step`
is `0` (the comparison `0 == None` is `False`, so the value `0` reaches the
division). -/
def calcNumSteps (s : AgentState) : Except PyError ℤ :=
  if s.bufferLen < s.minObservations then .ok 0
  else
    match s.observationsPerStep with
    | none => .ok 1
    | some v =>
        if v = 0 then .error .zeroDivisionError
        else .ok (pyInt ((s.numObservations : ℚ) / v))

/-- The loop body of `Agent.update` (src/agents/agent.py lines 56-58):
`for _ in range(num_steps): self.learner.step(self.buffer); self._num_observations = 0`.
The learner is opaque; the second component counts the `learner.step`
invocations actually made. -/
def updateLoop : ℕ → AgentState → AgentState × ℕ
  | 0, s => (s, 0)
  | n + 1, s =>
      let s1 := { s with numObservations := 0 }
      let r := updateLoop n s1
      (r.1, r.2 + 1)

/-- Result of `Agent.update`: the post-state, the number of `learner.step`
calls made, and the Python return value.  The method body has no `return`
statement, so the function returns `None` (modelled as `none`). -/
structure AgentUpdateResult where
  state : AgentState
  stepCalls : ℕ
  ret : Option ℤ
  deriving DecidableEq, Repr

/-- Embedding of `Agent.update` (src/agents/agent.py lines 50-61): compute
`num_steps = self._calc_num_steps()`, run the loop, and fall off the end of the
function (returning `None`).  A negative `num_steps` gives `range(num_steps)`
of length `0`, hence `Int.toNat`. -/
def agentUpdate (s : AgentState) : Except PyError AgentUpdateResult :=
  match calcNumSteps s with
  | .error e => .error e
  | .ok n =>
      let r := updateLoop n.toNat s
      .ok ⟨r.1, r.2, none⟩

/-! ## DQN agent (src/agents/dqn/agent.py)

Two models are needed.

*Attribute model* — `DQNAgent.__init__` calls `super().__init__(actor,
learner, buffer)`, which binds the names `actor`, `learner`, `buffer` (plus
`min_observations`, `observations_per_step`, `_num_observations`), and then
binds `min_experiences`, `Q_update_every`, `n`, `total_experiences`,
`_logger`.  The methods `observe` and `update`, however, read `self._actor`,
`self._learner`, `self._buffer` — names never assigned anywhere.  We model the
set of instance-attribute names and each method as the sequence of attribute
reads it performs, in Python evaluation order.

*Logic model* — the numeric content of `DQNAgent.update` (the gates on
`min_experiences` / `Q_update_every` and the epsilon schedule), as it stands in
the method body, with the collaborator attribute reads assumed to resolve. -/

/-- Instance attributes bound by `Agent.__init__` (src/agents/agent.py
lines 27-35). -/
def agentInitAttrs : List String :=
  ["actor", "learner", "buffer", "min_observations", "observations_per_step",
   "_num_observations"]

/-- Instance attributes bound after `DQNAgent.__init__`
(src/agents/dqn/agent.py lines 8-32): the `super().__init__` bindings followed
by the subclass's own. -/
def dqnInitAttrs : List String :=
  agentInitAttrs ++
    ["min_experiences", "Q_update_every", "n", "total_experiences", "_logger"]

/-- Python attribute lookup on an instance whose attribute names are `attrs`:
an unknown name raises `AttributeError`. -/
def getattrE (attrs : List String) (a : String) : Except PyError Unit :=
  if a ∈ attrs then .ok () else .error (.attributeError a)

/-- Embedding of `DQNAgent.observe` (src/agents/dqn/agent.py lines 34-41) as its sequence of
instance-attribute reads, in evaluation order:

    self._actor.observe(action, timestep, is_last)   -- reads _actor
    self.n += 1                                      -- reads n
    self.total_experiences += 1                      -- reads total_experiences
    if is_last:
        self._logger.add_return(self, self._actor._return)
        self._logger.add_episode_length(self, self._actor._steps)
-/
def dqnObserveAttrs (attrs : List String) (is_last : Bool) : Except PyError Unit := do
  getattrE attrs ("_actor")
  getattrE attrs ("n")
  getattrE attrs ("total_experiences")
  if is_last then
    getattrE attrs ("_logger")
    getattrE attrs ("_actor")
    getattrE attrs ("_logger")
    getattrE attrs ("_actor")
  else
    pure ()

/-- Embedding of `DQNAgent.update` (src/agents/dqn/agent.py lines 43-59) as its sequence of
instance-attribute reads, in evaluation order.  The gate
`len(self._buffer) < self.min_experiences or self.n < self.Q_update_every`
reads `_buffer` first; its boolean outcome is abstracted as `gateStops`
(values being irrelevant once an earlier read raises). -/
def dqnUpdateAttrs (attrs : List String) (gateStops : Bool) : Except PyError Bool := do
  getattrE attrs ("_buffer")
  getattrE attrs ("min_experiences")
  getattrE attrs ("n")
  getattrE attrs ("Q_update_every")
  if gateStops then
    pure false
  else do
    getattrE attrs ("_learner")
    getattrE attrs ("_buffer")
    getattrE attrs ("_learner")
    getattrE attrs ("_actor")
    getattrE attrs ("total_experiences")
    getattrE attrs ("_actor")
    getattrE attrs ("_logger")
    getattrE attrs ("_logger")
    getattrE attrs ("_buffer")
    pure true

/-- Embedding of `numpy.round` at zero decimals: round half to even (banker's rounding),
returned as an integer.  For a value with fractional part `1/2` the nearest
even integer is chosen; otherwise the ordinary nearest integer. -/
def halfEvenRound (x : ℚ) : ℤ :=
  if Int.fract x = 1 / 2 then 2 * round (x / 2) else round x

/-- Embedding of `np.round(x, 1)`: round half to even at one decimal. -/
def npRound1 (x : ℚ) : ℚ :=
  (halfEvenRound (10 * x) : ℚ) / 10

/-- The epsilon schedule of `DQNAgent.update` (src/agents/dqn/agent.py
lines 53-54):

    x = np.round(self.total_experiences / 1_000_000, 1)
    self._actor.epsilon = 1.0 - min(0.9, x)
-/
def epsilonSchedule (totalExperiences : ℕ) : ℚ :=
  1 - min (9 / 10) (npRound1 ((totalExperiences : ℚ) / 1000000))

/-- Numeric state of a `DQNAgent` for the logic model of `update`. -/
structure DQNState where
  bufferLen : ℕ
  minExperiences : ℕ
  qUpdateEvery : ℕ
  n : ℕ
  totalExperiences : ℕ
  epsilon : ℚ
  deriving DecidableEq, Repr

/-- The numeric logic of `DQNAgent.update` (src/agents/dqn/agent.py
lines 43-59), with the collaborator attribute reads assumed to resolve
(see `dqnUpdateAttrs` for what actually happens to those reads at runtime):
return `False` unless `len(buffer) >= min_experiences` and
`n >= Q_update_every`; otherwise perform one learner step (opaque), push the
Q-network to the actor (opaque), set the actor's epsilon from the schedule,
reset `n` to `0`, and return `True`. -/
def dqnUpdateLogic (s : DQNState) : DQNState × Bool :=
  if s.bufferLen < s.minExperiences ∨ s.n < s.qUpdateEvery then (s, false)
  else ({ s with epsilon := epsilonSchedule s.totalExperiences, n := 0 }, true)

/-! ## PGLearner (src/agents/vpg/learning.py)

Tensors of shape `(episodes, steps)` are functions `Fin B → Fin T → ℝ`, logits
of shape `(episodes, steps, num_act)` are `Fin B → Fin T → Fin A → ℝ`, and the
integer action tensor is `Fin B → Fin T → Fin A`.  Float arithmetic is
modelled over `ℝ`. -/

/-- The toeplitz matrix of `PGLearner._discounted_cumulative_returns`
(src/agents/vpg/learning.py line 170):

    toeplitz = [[discount ** j for j in range(i,-1,-1)] + [0]*(steps-i-1)
                for i in range(steps)]

Row `i` holds `g^i, g^(i-1), …, g^0` at columns `0..i` followed by zeros, so
entry `(i, c)` is `g^(i-c)` when `c ≤ i` and `0` otherwise. -/
noncomputable def toeplitz (T : ℕ) (g : ℝ) (i c : Fin T) : ℝ :=
  if (c : ℕ) ≤ (i : ℕ) then g ^ ((i : ℕ) - (c : ℕ)) else 0

/-- Embedding of `PGLearner._discounted_cumulative_returns` (src/agents/vpg/learning.py
lines 131-173): `discounted_returns = torch.matmul(rewards, toeplitz)`, i.e.
entry `(b, t)` is `Σ_j rewards[b,j] * toeplitz[j,t]`, followed by
`* masks` elementwise. -/
noncomputable def discountedCumulativeReturns (B T : ℕ)
    (rewards masks : Fin B → Fin T → ℝ) (g : ℝ) : Fin B → Fin T → ℝ :=
  fun b t => (∑ j, rewards b j * toeplitz T g j t) * masks b t

/-- Embedding of `PGLearner._normalized_returns` (src/agents/vpg/learning.py lines 175-227):

    masked_means = torch.sum(masks * returns, dim=0)
                   / torch.maximum(torch.sum(masks, dim=0), 1)
    masked_means = masks * torch.tile(masked_means, (batch_size, 1))
    return (masks * returns - masked_means)   # / masked_stds  (commented out)

The standard deviations `masked_stds` are computed by the method (see
`maskedStds`) but do not enter the returned value: the division is commented
out in the source. -/
noncomputable def normalizedReturns (B T : ℕ)
    (returns masks : Fin B → Fin T → ℝ) : Fin B → Fin T → ℝ :=
  fun b t =>
    masks b t * returns b t -
      masks b t * ((∑ j, masks j t * returns j t) / max (∑ j, masks j t) 1)

/-- The per-timestep standard deviations computed (and then left unused) by
`PGLearner._normalized_returns` (src/agents/vpg/learning.py lines 224-226),
with `eps` the smallest positive normal float replaced by its role: a positive
floor.  Defined for completeness; `normalizedReturns` does not use it. -/
noncomputable def maskedStds (B T : ℕ)
    (returns masks : Fin B → Fin T → ℝ) (eps : ℝ) : Fin T → ℝ :=
  fun t =>
    let mean := (∑ j, masks j t * returns j t) / max (∑ j, masks j t) 1
    max (Real.sqrt ((∑ j, (masks j t * returns j t - masks j t * mean) ^ 2) /
          max (∑ j, masks j t) 1)) eps

/-- Embedding of `softmax` of a logit vector over the full action space
(`F.softmax(logits, dim=-1)`). -/
noncomputable def softmax (A : ℕ) (x : Fin A → ℝ) (a : Fin A) : ℝ :=
  Real.exp (x a) / ∑ b, Real.exp (x b)

/-- Embedding of `log_softmax` of a logit vector at one action:
`log_softmax(x)[a] = x[a] - log Σ_b exp x[b]`.  `F.cross_entropy` with an
integer target and `reduction="none"` is its negation. -/
noncomputable def logSoftmax (A : ℕ) (x : Fin A → ℝ) (a : Fin A) : ℝ :=
  x a - Real.log (∑ b, Real.exp (x b))

/-- The per-step quantity of `PGLearner._episode_entropy`
(src/agents/vpg/learning.py line 253):
`step_entropy = -F.cross_entropy(logits.permute(0,2,1), actions,
reduction="none")`, i.e. the log-probability `log π(a_t | s_t)` of the action
actually taken. -/
noncomputable def stepEntropy (B T A : ℕ) (logits : Fin B → Fin T → Fin A → ℝ)
    (actions : Fin B → Fin T → Fin A) : Fin B → Fin T → ℝ :=
  fun b t => logSoftmax A (logits b t) (actions b t)

/-- Embedding of `PGLearner._episode_entropy` (src/agents/vpg/learning.py lines 229-264):

    episode_entropy = torch.sum(masks * step_entropy, dim=-1, keepdim=True)
    episode_entropy = masks * torch.tile(episode_entropy, dims=(1, steps))
-/
noncomputable def episodeEntropy (B T A : ℕ) (logits : Fin B → Fin T → Fin A → ℝ)
    (actions : Fin B → Fin T → Fin A) (masks : Fin B → Fin T → ℝ) :
    Fin B → Fin T → ℝ :=
  fun b t => masks b t * ∑ s, masks b s * stepEntropy B T A logits actions b s

/-- The specification's reading of the entropy term (spec §4.4 step 4): the
per-step *action-distribution* entropy `H(π(·|s)) = -Σ_a π(a|s) log π(a|s)`.
Written from the spec's words, to be compared with the source's
`stepEntropy`. -/
noncomputable def specDistEntropy (A : ℕ) (x : Fin A → ℝ) : ℝ :=
  -∑ a, softmax A x a * Real.log (softmax A x a)

/-- The specification's reading of `_episode_entropy` (spec §4.4 step 4):
"the per-episode total action-distribution entropy over all its timesteps
(masked sum of per-step entropies, broadcast back to every timestep of that
episode)".  Written from the spec's words. -/
noncomputable def specEpisodeEntropy (B T A : ℕ) (logits : Fin B → Fin T → Fin A → ℝ)
    (masks : Fin B → Fin T → ℝ) : Fin B → Fin T → ℝ :=
  fun b t => masks b t * ∑ s, masks b s * specDistEntropy A (logits b s)

/-- The loss of `PGLearner.step` (src/agents/vpg/learning.py lines 99-101)
given the already-computed `q_values`:

    nll = F.cross_entropy(logits.permute(0,2,1), actions, reduction="none")
    weighted_nll = torch.mul(masks * nll, q_values)
    loss = torch.sum(weighted_nll) / torch.sum(masks)
-/
noncomputable def pgLoss (B T A : ℕ) (logits : Fin B → Fin T → Fin A → ℝ)
    (actions : Fin B → Fin T → Fin A) (qValues masks : Fin B → Fin T → ℝ) : ℝ :=
  (∑ b, ∑ t, masks b t * (-logSoftmax A (logits b t) (actions b t)) * qValues b t) /
    (∑ b, ∑ t, masks b t)

/-- The batch-processing pipeline of `PGLearner.step`
(src/agents/vpg/learning.py lines 89-101), after the batch has been drawn and
the logits computed:

    q_values = self._discounted_cumulative_returns(rewards, masks, discount)
    q_values = q_values - 0.5 * ereg * self._episode_entropy(logits, actions, masks)
    q_values = self._normalized_returns(q_values, masks)
    ... loss ...

The method performs no validation of the batch whatsoever — there is no shape
or emptiness check, and no `BatchShapeError` is raised anywhere (none exists
in the source); with an all-zero mask the denominator `torch.sum(masks)` is
`0` and float division silently yields a non-finite value rather than raising.
The `Except` wrapper records that no error path exists in the method body. -/
noncomputable def pgStep (B T A : ℕ) (logits : Fin B → Fin T → Fin A → ℝ)
    (actions : Fin B → Fin T → Fin A) (rewards masks : Fin B → Fin T → ℝ)
    (g ereg : ℝ) : Except PyError ℝ :=
  let q1 := discountedCumulativeReturns B T rewards masks g
  let q2 := fun b t => q1 b t - 0.5 * ereg * episodeEntropy B T A logits actions masks b t
  let q3 := normalizedReturns B T q2 masks
  .ok (pgLoss B T A logits actions q3 masks)

/-! ## `policy` of `PGAgent` (src/agents/vpg/agent.py lines 59-66)

    def policy(observation, legal):
        logits = policy_network(observation)
        if legal is not None:
            illegal = list(set(range(num_actions)) - set(legal))
            logits[illegal] = float("-inf")
        probs = F.softmax(logits, dim=-1)
        return probs

The network output is opaque: the model takes the logit vector directly.
Setting a logit to `-inf` makes its `exp` equal to `0` and removes it from the
softmax denominator, so over `ℝ` the masked softmax assigns
`exp(x a) / Σ_{b ∈ legal} exp(x b)` to legal actions and `0` to illegal ones
(the float computation is `0/(finite positive)` there, exactly `0`). -/

/-- The probability vector returned by `policy(observation, legal)` with a
legal-action set `legal`. -/
noncomputable def policyProbs (A : ℕ) (logits : Fin A → ℝ)
    (legal : Finset (Fin A)) (a : Fin A) : ℝ :=
  if a ∈ legal then Real.exp (logits a) / ∑ b ∈ legal, Real.exp (logits b) else 0

/-! ## Helper lemmas on 0/1-valued masks -/

/-- Summing `w j * f j` over all `j` with a 0/1-valued weight `w` equals
summing `f` over the indices where `w` is `1`. -/
lemma sum_mul_indicator {n : ℕ} (w f : Fin n → ℝ) (hw : ∀ j, w j = 0 ∨ w j = 1) :
    ∑ j, w j * f j = ∑ j ∈ Finset.univ.filter (fun j => w j = 1), f j := by
  rw [Finset.sum_filter]
  refine Finset.sum_congr rfl (fun j _ => ?_)
  rcases hw j with h | h <;> simp [h]

/-- The sum of a 0/1-valued weight equals the number of indices where it
is `1`. -/
lemma sum_indicator_eq_card {n : ℕ} (w : Fin n → ℝ) (hw : ∀ j, w j = 0 ∨ w j = 1) :
    ∑ j, w j = ((Finset.univ.filter (fun j => w j = 1)).card : ℝ) := by
  rw [← Finset.sum_boole]
  refine Finset.sum_congr rfl (fun j _ => ?_)
  rcases hw j with h | h <;> simp [h]

/-- The invocation count of `updateLoop` equals the requested number of
iterations. -/
lemma updateLoop_count (n : ℕ) (s : AgentState) : (updateLoop n s).2 = n := by
  induction n generalizing s with
  | zero => rfl
  | succ k ih => simp [updateLoop, ih]

/-- After at least one iteration the observation counter is `0`; with zero
iterations the state is untouched. -/
lemma updateLoop_state (n : ℕ) (s : AgentState) :
    (updateLoop n s).1 = if n = 0 then s else { s with numObservations := 0 } := by
  induction n generalizing s with
  | zero => rfl
  | succ k ih =>
      simp only [updateLoop, ih]
      by_cases hk : k = 0 <;> simp [hk]

/-- A rational at least `10` rounds (half-to-even) to an integer at least
`10`. -/
lemma halfEvenRound_ge_ten (x : ℚ) (h : 10 ≤ x) : 10 ≤ halfEvenRound x := by
  unfold halfEvenRound
  split
  · have h5 : (5 : ℤ) ≤ round (x / 2) := by
      rw [round_eq]
      exact Int.le_floor.mpr (by push_cast; linarith)
    linarith
  · rw [round_eq]
    exact Int.le_floor.mpr (by push_cast; linarith)

/-- Saturation of the epsilon schedule: from one million lifetime experiences
on, epsilon is exactly `0.1`. -/
lemma epsilonSchedule_saturates (total : ℕ) (h : 1000000 ≤ total) :
    epsilonSchedule total = 1 / 10 := by
  unfold epsilonSchedule npRound1
  have h1 : (1000000 : ℚ) ≤ (total : ℚ) := by exact_mod_cast h
  have hx : (10 : ℚ) ≤ 10 * ((total : ℚ) / 1000000) := by
    have h2 : (1 : ℚ) ≤ (total : ℚ) / 1000000 := by
      rw [le_div_iff₀ (by norm_num : (0:ℚ) < 1000000)]
      linarith
    linarith
  have h2 : (10 : ℤ) ≤ halfEvenRound (10 * ((total : ℚ) / 1000000)) :=
    halfEvenRound_ge_ten _ hx
  have h3 : (9 : ℚ) / 10 ≤ (halfEvenRound (10 * ((total : ℚ) / 1000000)) : ℚ) / 10 := by
    have h4 : (10 : ℚ) ≤ (halfEvenRound (10 * ((total : ℚ) / 1000000)) : ℚ) := by
      exact_mod_cast h2
    linarith
  rw [min_eq_left h3]
  norm_num

/-- Integers are fixed by half-to-even rounding. -/
lemma halfEvenRound_intCast (n : ℤ) : halfEvenRound (n : ℚ) = n := by
  unfold halfEvenRound
  rw [Int.fract_intCast]
  norm_num

/-- Evaluation of the epsilon schedule when `total/1e6` lands on an exact
tenth `n/10`. -/
lemma epsilonSchedule_of_int (t : ℕ) (n : ℤ)
    (h : 10 * ((t : ℚ) / 1000000) = (n : ℚ)) :
    epsilonSchedule t = 1 - min (9 / 10) ((n : ℚ) / 10) := by
  unfold epsilonSchedule npRound1
  rw [h, halfEvenRound_intCast]

/-- With no lifetime experiences the schedule gives epsilon `1.0`. -/
lemma epsilonSchedule_zero : epsilonSchedule 0 = 1 := by
  rw [epsilonSchedule_of_int 0 0 (by norm_num)]
  rw [show ((0 : ℤ) : ℚ) / 10 = 0 by norm_num,
      min_eq_right (by norm_num : (0:ℚ) ≤ 9 / 10)]
  norm_num

/-- At half a million lifetime experiences the schedule gives epsilon
exactly `0.5`. -/
lemma epsilonSchedule_500k : epsilonSchedule 500000 = 1 / 2 := by
  rw [epsilonSchedule_of_int 500000 5 (by norm_num)]
  rw [show ((5 : ℤ) : ℚ) / 10 = 1 / 2 by norm_num,
      min_eq_right (by norm_num : (1:ℚ) / 2 ≤ 9 / 10)]
  norm_num

/-- Evaluation of `_calc_num_steps` at the spec's test instance. -/
lemma calcNumSteps_five_two_seven : calcNumSteps ⟨5, some 2, 5, 7⟩ = .ok 3 := by
  unfold calcNumSteps pyInt
  norm_num [Int.floor_eq_iff]

/-! ## Claims C5, C6, C10 — the generic `Agent` -/

/-- C5: `_calc_num_steps` returns `0` whenever `len(buffer) < min_observations`;
returns exactly `1` when `observations_per_step` is unset (`None`); and
otherwise — for a set, positive `observations_per_step` — returns
`floor(num_observations / observations_per_step)`.  (For the value `0` the
division raises `ZeroDivisionError` instead: claim C10.) -/
theorem calcNumSteps_spec (s : AgentState) :
    (s.bufferLen < s.minObservations → calcNumSteps s = .ok 0) ∧
    (¬ s.bufferLen < s.minObservations → s.observationsPerStep = none →
      calcNumSteps s = .ok 1) ∧
    (∀ v : ℚ, ¬ s.bufferLen < s.minObservations → s.observationsPerStep = some v →
      0 < v → calcNumSteps s = .ok ⌊(s.numObservations : ℚ) / v⌋) := by
  refine ⟨fun h => ?_, fun h hn => ?_, fun v h hv hpos => ?_⟩
  · simp [calcNumSteps, h]
  · simp [calcNumSteps, h, hn]
  · have hne : v ≠ 0 := ne_of_gt hpos
    have hq : (0 : ℚ) ≤ (s.numObservations : ℚ) / v :=
      div_nonneg (Nat.cast_nonneg _) hpos.le
    simp [calcNumSteps, h, hv, hne, pyInt, hq]

/-- Witness for C5 at the concrete instance of the spec:
`min_observations = 5`, `observations_per_step = 2`, a warm buffer and `7`
observations give `3` steps. -/
theorem calcNumSteps_spec_witness :
    ¬ (5 : ℕ) < 5 ∧ (0 : ℚ) < 2 ∧
    calcNumSteps ⟨5, some 2, 5, 7⟩ = .ok 3 := by
  refine ⟨by decide, by norm_num, ?_⟩
  have h := (calcNumSteps_spec ⟨5, some 2, 5, 7⟩).2.2 2 (by decide) rfl (by norm_num)
  rw [h]
  norm_num [Int.floor_eq_iff]

/-- C6 (amended): `update` invokes `learner.step` exactly `calc_num_steps()`
times, resets the observation counter to `0` after each invocation, and
returns `None` — not the number of steps performed (the method body has no
`return` statement). -/
theorem agentUpdate_spec (s : AgentState) (n : ℤ) (h : calcNumSteps s = .ok n) :
    agentUpdate s =
      .ok ⟨if n.toNat = 0 then s else { s with numObservations := 0 }, n.toNat, none⟩ := by
  have h1 : agentUpdate s =
      .ok ⟨(updateLoop n.toNat s).1, (updateLoop n.toNat s).2, none⟩ := by
    unfold agentUpdate
    rw [h]
  rw [h1, updateLoop_state, updateLoop_count]

/-- Witness for C6's amended claim at a concrete state performing `3` steps. -/
theorem agentUpdate_spec_witness :
    calcNumSteps ⟨5, some 2, 5, 7⟩ = .ok 3 ∧
    agentUpdate ⟨5, some 2, 5, 7⟩ = .ok ⟨⟨5, some 2, 5, 0⟩, 3, none⟩ :=
  ⟨calcNumSteps_five_two_seven, by
    have h := agentUpdate_spec ⟨5, some 2, 5, 7⟩ 3 calcNumSteps_five_two_seven
    simpa using h⟩

/-- Counterexample for C6 as stated: at a state where three learner steps are
performed, `update` returns `None` (modelled `none`), not the number `3` of
steps performed. -/
theorem agentUpdate_returns_none :
    agentUpdate ⟨5, some 2, 5, 7⟩ = .ok ⟨⟨5, some 2, 5, 0⟩, 3, none⟩ ∧
    (none : Option ℤ) ≠ some 3 := by
  constructor
  · have h1 : agentUpdate ⟨5, some 2, 5, 7⟩ =
        .ok ⟨(updateLoop ((3:ℤ).toNat) ⟨5, some 2, 5, 7⟩).1,
             (updateLoop ((3:ℤ).toNat) ⟨5, some 2, 5, 7⟩).2, none⟩ := by
      unfold agentUpdate
      rw [calcNumSteps_five_two_seven]
    rw [h1, updateLoop_state, updateLoop_count]
    norm_num
    decide
  · exact fun hc => Option.noConfusion hc

/-- C10: with `observations_per_step` left at its integer default `0` and a
buffer at least `min_observations` long, `update()` raises
`ZeroDivisionError`: the unset-check of `_calc_num_steps` compares only
against `None`, so the value `0` reaches the division. -/
theorem agentUpdate_zero_division (s : AgentState)
    (h1 : s.observationsPerStep = some 0) (h2 : s.minObservations ≤ s.bufferLen) :
    agentUpdate s = .error PyError.zeroDivisionError := by
  have hlt : ¬ s.bufferLen < s.minObservations := not_lt.mpr h2
  simp [agentUpdate, calcNumSteps, h1, hlt]

/-- Witness for C10 at the default-constructed agent
(`min_observations = 0`, `observations_per_step = 0`, empty buffer). -/
theorem agentUpdate_zero_division_witness :
    some (0 : ℚ) = some 0 ∧ (0 : ℕ) ≤ 0 ∧
    agentUpdate ⟨0, some 0, 0, 0⟩ = .error PyError.zeroDivisionError :=
  ⟨rfl, Nat.le_refl 0, agentUpdate_zero_division ⟨0, some 0, 0, 0⟩ rfl (Nat.le_refl 0)⟩

/-! ## Claims C7, C9 — the DQN agent -/

/-- C7 (amended): when the gated update fires, epsilon is set to
`1.0 - min(0.9, round(total/1e6, 1))` and `n` is reset; the schedule gives
`1.0` at `0` experiences, exactly `0.5` (not `≈0.55`) at `500_000`, and
saturates at `0.1` from `1_000_000` on. -/
theorem dqnUpdate_epsilon_spec (s : DQNState)
    (h : ¬ (s.bufferLen < s.minExperiences ∨ s.n < s.qUpdateEvery)) :
    (dqnUpdateLogic s).2 = true ∧
    (dqnUpdateLogic s).1.epsilon = epsilonSchedule s.totalExperiences ∧
    (dqnUpdateLogic s).1.n = 0 ∧
    epsilonSchedule 0 = 1 ∧
    epsilonSchedule 500000 = 1 / 2 ∧
    (∀ total : ℕ, 1000000 ≤ total → epsilonSchedule total = 1 / 10) := by
  unfold dqnUpdateLogic
  rw [if_neg h]
  exact ⟨rfl, rfl, rfl, epsilonSchedule_zero, epsilonSchedule_500k,
    epsilonSchedule_saturates⟩

/-- Witness for C7's amended claim at a concrete firing state. -/
theorem dqnUpdate_epsilon_spec_witness :
    ¬ ((1 : ℕ) < 0 ∨ (0 : ℕ) < 0) ∧
    ((dqnUpdateLogic ⟨1, 0, 0, 0, 0, 0⟩).2 = true ∧
     (dqnUpdateLogic ⟨1, 0, 0, 0, 0, 0⟩).1.epsilon = epsilonSchedule 0 ∧
     (dqnUpdateLogic ⟨1, 0, 0, 0, 0, 0⟩).1.n = 0 ∧
     epsilonSchedule 0 = 1 ∧
     epsilonSchedule 500000 = 1 / 2 ∧
     (∀ total : ℕ, 1000000 ≤ total → epsilonSchedule total = 1 / 10)) :=
  ⟨by decide, dqnUpdate_epsilon_spec ⟨1, 0, 0, 0, 0, 0⟩ (by decide)⟩

/-- Counterexample for C7 as stated: after an update fired with
`total_experiences = 500_000`, epsilon is exactly `0.5`, which is not the
claimed `≈ 0.55`. -/
theorem epsilon_at_500k :
    (dqnUpdateLogic ⟨1, 0, 0, 0, 500000, 1⟩).2 = true ∧
    (dqnUpdateLogic ⟨1, 0, 0, 0, 500000, 1⟩).1.epsilon = 1 / 2 ∧
    ¬ ((1 : ℚ) / 2 = 55 / 100) := by
  have hg : ¬ ((1 : ℕ) < 0 ∨ (0 : ℕ) < 0) := by decide
  refine ⟨?_, ?_, by norm_num⟩
  · unfold dqnUpdateLogic
    rw [if_neg hg]
  · unfold dqnUpdateLogic
    rw [if_neg hg]
    exact epsilonSchedule_500k

/-- C9: `DQNAgent.__init__` (through `Agent.__init__`) binds the collaborators
as `actor`, `learner`, `buffer`; the names `_actor`, `_learner`, `_buffer`
read by `observe` and `update` are never assigned, so both methods raise
`AttributeError` on their very first attribute access, before doing any
work. -/
theorem dqn_attribute_error :
    (("actor") ∈ dqnInitAttrs ∧ ("learner") ∈ dqnInitAttrs ∧ ("buffer") ∈ dqnInitAttrs) ∧
    (("_actor") ∉ dqnInitAttrs ∧ ("_learner") ∉ dqnInitAttrs ∧ ("_buffer") ∉ dqnInitAttrs) ∧
    (∀ is_last : Bool, dqnObserveAttrs dqnInitAttrs is_last
        = .error (PyError.attributeError ("_actor"))) ∧
    (∀ gateStops : Bool, dqnUpdateAttrs dqnInitAttrs gateStops
        = .error (PyError.attributeError ("_buffer"))) := by
  refine ⟨by decide, by decide, fun il => ?_, fun gs => ?_⟩
  · cases il <;> rfl
  · cases gs <;> rfl

/-! ## Claims C1, C3 — discounted returns and normalization -/

/-- C1: at every active position (`mask = 1`) the discounted cumulative
return is the reward-to-go `Σ_{k ≥ t} g^(k-t) · reward[b,k]`, and it is `0`
at every padded position (`mask = 0`). -/
theorem discountedCumulativeReturns_spec (B T : ℕ)
    (rewards masks : Fin B → Fin T → ℝ) (g : ℝ) (b : Fin B) (t : Fin T) :
    (masks b t = 0 → discountedCumulativeReturns B T rewards masks g b t = 0) ∧
    (masks b t = 1 → discountedCumulativeReturns B T rewards masks g b t
        = ∑ k ∈ Finset.univ.filter (fun k : Fin T => t ≤ k),
            g ^ ((k : ℕ) - (t : ℕ)) * rewards b k) := by
  constructor
  · intro h
    simp [discountedCumulativeReturns, h]
  · intro h
    simp only [discountedCumulativeReturns, h, mul_one]
    rw [Finset.sum_filter]
    refine Finset.sum_congr rfl (fun j _ => ?_)
    by_cases hj : t ≤ j
    · rw [if_pos hj, toeplitz, if_pos (Fin.le_def.mp hj), mul_comm]
    · have hj2 : ¬ (t : ℕ) ≤ (j : ℕ) := fun hc => hj (Fin.le_def.mpr hc)
      rw [if_neg hj, toeplitz, if_neg hj2, mul_zero]

/-- Witness for C1: a fully active row of two rewards `1, 2` with
discount `1/2`. -/
theorem discountedCumulativeReturns_spec_witness :
    ((1 : ℝ) = 1) ∧
    discountedCumulativeReturns 1 2 (fun _ k => ((k : ℕ) : ℝ) + 1) (fun _ _ => 1)
        (1 / 2) 0 0
      = ∑ k ∈ Finset.univ.filter (fun k : Fin 2 => (0 : Fin 2) ≤ k),
          (1 / 2 : ℝ) ^ ((k : ℕ) - ((0 : Fin 2) : ℕ)) * (((k : ℕ) : ℝ) + 1) :=
  ⟨rfl, (discountedCumulativeReturns_spec 1 2 (fun _ k => ((k : ℕ) : ℝ) + 1)
      (fun _ _ => 1) (1 / 2) 0 0).2 rfl⟩

/-- C3: `_normalized_returns` is `masks * returns` minus the per-timestep
masked mean — the mean of `returns` over the rows still active at that
timestep, with divisor `max(count, 1)` — broadcast to active positions, `0`
at padded positions; the standard deviation (`maskedStds`) is computed by the
method but the result is not divided by it. -/
theorem normalizedReturns_spec (B T : ℕ) (returns masks : Fin B → Fin T → ℝ)
    (hm : ∀ j t, masks j t = 0 ∨ masks j t = 1) (b : Fin B) (t : Fin T) :
    (masks b t = 0 → normalizedReturns B T returns masks b t = 0) ∧
    (masks b t = 1 → normalizedReturns B T returns masks b t
        = returns b t -
          (∑ j ∈ Finset.univ.filter (fun j : Fin B => masks j t = 1), returns j t) /
            max (((Finset.univ.filter (fun j : Fin B => masks j t = 1)).card : ℝ)) 1) := by
  constructor
  · intro h
    simp [normalizedReturns, h]
  · intro h
    have hnum := sum_mul_indicator (fun j => masks j t) (fun j => returns j t)
      (fun j => hm j t)
    have hden := sum_indicator_eq_card (fun j => masks j t) (fun j => hm j t)
    simp only [normalizedReturns, h, one_mul]
    rw [hnum, hden]

/-- Witness for C3: two fully active rows with returns `2`. -/
theorem normalizedReturns_spec_witness :
    ((1 : ℝ) = 0 ∨ (1 : ℝ) = 1) ∧
    normalizedReturns 2 1 (fun _ _ => 2) (fun _ _ => 1) 0 0
      = 2 -
        (∑ j ∈ Finset.univ.filter (fun j : Fin 2 => (1 : ℝ) = 1), (2 : ℝ)) /
          max (((Finset.univ.filter (fun j : Fin 2 => (1 : ℝ) = 1)).card : ℝ)) 1 :=
  ⟨Or.inr rfl, (normalizedReturns_spec 2 1 (fun _ _ => 2) (fun _ _ => 1)
      (fun _ _ => Or.inr rfl) 0 0).2 rfl⟩

/-! ## Claim C2 — the "entropy" term -/

/-- Counterexample for C2 as stated: on a one-step episode with two actions,
uniform logits and full mask, the term computed by `_episode_entropy` is
`log π(a|s) = -log 2`, whereas the per-episode total action-distribution
entropy of the spec is `log 2`; the two differ. -/
theorem episodeEntropy_ne_distribution_entropy :
    episodeEntropy 1 1 2 (fun _ _ _ => 0) (fun _ _ => 0) (fun _ _ => 1) 0 0
      ≠ specEpisodeEntropy 1 1 2 (fun _ _ _ => 0) (fun _ _ => 1) 0 0 := by
  have hL : episodeEntropy 1 1 2 (fun _ _ _ => 0) (fun _ _ => 0) (fun _ _ => 1) 0 0
      = -Real.log 2 := by
    simp [episodeEntropy, stepEntropy, logSoftmax, Fin.sum_univ_two]
  have hp : ∀ a : Fin 2, softmax 2 (fun _ => (0 : ℝ)) a = 1 / 2 := by
    intro a
    simp [softmax, Fin.sum_univ_two]
  have h12 : Real.log ((1 : ℝ) / 2) = -Real.log 2 := by
    rw [one_div, Real.log_inv]
  have hR : specEpisodeEntropy 1 1 2 (fun _ _ _ => 0) (fun _ _ => 1) 0 0
      = Real.log 2 := by
    simp [specEpisodeEntropy, specDistEntropy, hp, Fin.sum_univ_two, h12]
  rw [hL, hR]
  have hpos := Real.log_pos (by norm_num : (1 : ℝ) < 2)
  intro heq
  linarith

/-- C2 (amended): the term `PGLearner.step` subtracts (scaled by `0.5*ereg`)
equals, at every active timestep, the masked sum over the episode of the
per-step log-probabilities of the chosen actions (`-cross_entropy`, i.e.
`log π(a_s|s_s)` — not the distribution entropy), broadcast to every active
timestep and `0` at padded timesteps. -/
theorem episodeEntropy_eq_logprob_sum (B T A : ℕ)
    (logits : Fin B → Fin T → Fin A → ℝ) (actions : Fin B → Fin T → Fin A)
    (masks : Fin B → Fin T → ℝ) (hm : ∀ b t, masks b t = 0 ∨ masks b t = 1)
    (b : Fin B) (t : Fin T) :
    (masks b t = 0 → episodeEntropy B T A logits actions masks b t = 0) ∧
    (masks b t = 1 → episodeEntropy B T A logits actions masks b t
        = ∑ s ∈ Finset.univ.filter (fun s : Fin T => masks b s = 1),
            logSoftmax A (logits b s) (actions b s)) := by
  constructor
  · intro h
    simp [episodeEntropy, h]
  · intro h
    have hsum := sum_mul_indicator (fun s => masks b s)
      (fun s => stepEntropy B T A logits actions b s) (fun s => hm b s)
    simp only [episodeEntropy, h, one_mul]
    rw [hsum]
    rfl

/-- Witness for C2's amended claim: one-step episode, two actions, full
mask. -/
theorem episodeEntropy_eq_logprob_sum_witness :
    ((1 : ℝ) = 0 ∨ (1 : ℝ) = 1) ∧
    episodeEntropy 1 1 2 (fun _ _ _ => 0) (fun _ _ => 0) (fun _ _ => 1) 0 0
      = ∑ s ∈ Finset.univ.filter (fun s : Fin 1 => (1 : ℝ) = 1),
          logSoftmax 2 (fun _ => 0) 0 :=
  ⟨Or.inr rfl, (episodeEntropy_eq_logprob_sum 1 1 2 (fun _ _ _ => 0) (fun _ _ => 0)
      (fun _ _ => 1) (fun _ _ => Or.inr rfl) 0 0).2 rfl⟩

/-! ## Claim C4 — no batch validation in `PGLearner.step` -/

/-- C4 (amended): the batch pipeline of `PGLearner.step` performs no
validation at all — no `BatchShapeError` (or any other error) can be raised
by it; malformed batches are not detected there. -/
theorem pgStep_never_raises (B T A : ℕ) (logits : Fin B → Fin T → Fin A → ℝ)
    (actions : Fin B → Fin T → Fin A) (rewards masks : Fin B → Fin T → ℝ)
    (g ereg : ℝ) :
    ∀ e : PyError, pgStep B T A logits actions rewards masks g ereg
      ≠ Except.error e := by
  intro e hc
  simp [pgStep] at hc

/-- Counterexample for C4 as stated: on a batch whose mask is identically
zero (the "empty batch" of the claim), `step` does not fail with
`BatchShapeError` — it silently proceeds (in floats, on to a division by the
zero mask count). -/
theorem pgStep_allzero_mask_silently_proceeds :
    (pgStep 1 1 1 (fun _ _ _ => 0) (fun _ _ => 0) (fun _ _ => 1) (fun _ _ => 0)
        (1 / 2) 1).isOk = true ∧
    pgStep 1 1 1 (fun _ _ _ => 0) (fun _ _ => 0) (fun _ _ => 1) (fun _ _ => 0)
        (1 / 2) 1
      ≠ Except.error PyError.batchShapeError := by
  constructor
  · rfl
  · intro hc
    simp [pgStep] at hc

/-! ## Claim C8 — illegal-action masking in the `policy` closure -/

/-- C8: for any logits and any nonempty legal-action set, the policy's
probability vector is `0` exactly at the illegal indices, positive at the
legal ones, and sums to `1` over the full action space. -/
theorem policyProbs_spec (A : ℕ) (logits : Fin A → ℝ) (legal : Finset (Fin A))
    (h : legal.Nonempty) :
    (∀ a, a ∉ legal → policyProbs A logits legal a = 0) ∧
    (∀ a, a ∈ legal → 0 < policyProbs A logits legal a) ∧
    ∑ a, policyProbs A logits legal a = 1 := by
  have hden : 0 < ∑ b ∈ legal, Real.exp (logits b) :=
    Finset.sum_pos (fun b _ => Real.exp_pos _) h
  refine ⟨fun a ha => ?_, fun a ha => ?_, ?_⟩
  · simp [policyProbs, ha]
  · rw [policyProbs, if_pos ha]
    exact div_pos (Real.exp_pos _) hden
  · simp only [policyProbs]
    rw [Finset.sum_ite_mem, Finset.univ_inter, ← Finset.sum_div,
      div_self (ne_of_gt hden)]

/-- Witness for C8 at the spec's instance: `legal = {0, 2}` out of `4`
actions (probability `0` exactly at indices `1` and `3`). -/
theorem policyProbs_spec_witness :
    ({0, 2} : Finset (Fin 4)).Nonempty ∧
    ((∀ a, a ∉ ({0, 2} : Finset (Fin 4)) → policyProbs 4 (fun _ => 0) {0, 2} a = 0) ∧
     (∀ a, a ∈ ({0, 2} : Finset (Fin 4)) → 0 < policyProbs 4 (fun _ => 0) {0, 2} a) ∧
     ∑ a, policyProbs 4 (fun _ => 0) ({0, 2} : Finset (Fin 4)) a = 1) :=
  ⟨by decide, policyProbs_spec 4 (fun _ => 0) {0, 2} (by decide)⟩
